import Mathlib

/-
Verification of the magic-square coupling engine of Project-Genesis.

The repository implements the engine twice:
  * src/core_math.py + src/quantum_coupling.py   (referred to below as CoreMath / QuantumCoupling)
  * src/MATHEMATICS/magic_square_core.py + src/MATHEMATICS/magic_coupling.py
    (referred to below as MagicSquareCore / MagicCoupling)

Matrices are embedded as an order together with a total entry function over ℚ
(every concrete IEEE float is a rational, and all canonical squares in the
source are integral); scores that involve `tanh`, Frobenius norms or Pearson
correlation live in ℝ.  The ambient NumPy randomness (normal / uniform draws)
and the outcome of `np.linalg.svd` are passed in explicitly as parameters, so
every theorem quantifies over all possible draws.
-/

/-- A square numeric matrix: an order `n` together with an entry function.
Entries outside the `order × order` window are irrelevant — every sum below
ranges over `Finset.range order` — mirroring a NumPy `(n, n)` array. -/
structure Mat where
  order : ℕ
  entry : ℕ → ℕ → ℚ

/-- `np.sum(matrix[i, :])`. -/
def rowSum (m : Mat) (i : ℕ) : ℚ := ∑ j ∈ Finset.range m.order, m.entry i j

/-- `np.sum(matrix[:, j])`. -/
def colSum (m : Mat) (j : ℕ) : ℚ := ∑ i ∈ Finset.range m.order, m.entry i j

/-- `np.sum(np.diag(matrix))`. -/
def diagSum (m : Mat) : ℚ := ∑ i ∈ Finset.range m.order, m.entry i i

/-- `np.sum(np.diag(np.fliplr(matrix)))`: the anti-diagonal entries are
`matrix[i, n-1-i]`. -/
def antiDiagSum (m : Mat) : ℚ :=
  ∑ i ∈ Finset.range m.order, m.entry i (m.order - 1 - i)

/-- `core_math.generate_magic_square_3x3` — the Lo Shu square
`[[8, 1, 6], [3, 5, 7], [4, 9, 2]]`. -/
def generate_magic_square_3x3 : Mat :=
  ⟨3, fun i j =>
    if i = 0 then (if j = 0 then 8 else if j = 1 then 1 else 6)
    else if i = 1 then (if j = 0 then 3 else if j = 1 then 5 else 7)
    else (if j = 0 then 4 else if j = 1 then 9 else 2)⟩

/-- `core_math.generate_magic_square_5x5` —
`[[17,24,1,8,15],[23,5,7,14,16],[4,6,13,20,22],[10,12,19,21,3],[11,18,25,2,9]]`. -/
def generate_magic_square_5x5 : Mat :=
  ⟨5, fun i j =>
    if i = 0 then
      (if j = 0 then 17 else if j = 1 then 24 else if j = 2 then 1 else if j = 3 then 8 else 15)
    else if i = 1 then
      (if j = 0 then 23 else if j = 1 then 5 else if j = 2 then 7 else if j = 3 then 14 else 16)
    else if i = 2 then
      (if j = 0 then 4 else if j = 1 then 6 else if j = 2 then 13 else if j = 3 then 20 else 22)
    else if i = 3 then
      (if j = 0 then 10 else if j = 1 then 12 else if j = 2 then 19 else if j = 3 then 21 else 3)
    else
      (if j = 0 then 11 else if j = 1 then 18 else if j = 2 then 25 else if j = 3 then 2 else 9)⟩

namespace CoreMath

/-- The theoretical magic constant `n * (n**2 + 1) / 2` used by
`core_math.calculate_imbalance` and `core_math.create_approximate_magic_square`
(where the source calls it `magic_sum`). -/
def magic_constant (n : ℕ) : ℚ := (n : ℚ) * ((n : ℚ) ^ 2 + 1) / 2

/-- `core_math.is_magic_square(matrix, tolerance)`: order 0 is rejected; the
reference constant is the first row's sum; every row sum, column sum and both
diagonal sums must lie within `tolerance` of it (the source returns `False` as
soon as a deviation exceeds `tolerance`, hence `True` iff all `2N + 2` checks
pass). -/
def is_magic_square (m : Mat) (tolerance : ℚ) : Bool :=
  if m.order = 0 then false
  else
    let c := rowSum m 0
    decide ((∀ i ∈ Finset.range m.order,
        |rowSum m i - c| ≤ tolerance ∧ |colSum m i - c| ≤ tolerance) ∧
      |diagSum m - c| ≤ tolerance ∧ |antiDiagSum m - c| ≤ tolerance)

/-- `core_math.calculate_imbalance(matrix)`: 0 for order 0, otherwise the sum
of absolute deviations of all row, column and both diagonal sums from the
theoretical magic constant `n*(n**2+1)/2`. -/
def calculate_imbalance (m : Mat) : ℚ :=
  if m.order = 0 then 0
  else
    let k := magic_constant m.order
    (∑ i ∈ Finset.range m.order, (|rowSum m i - k| + |colSum m i - k|)) +
      |diagSum m - k| + |antiDiagSum m - k|

/-- `core_math.parity_stability_score(magic_square)` on a non-null matrix:
odd orders get base `0.8 + 0.2*(1 - 1/n)`, even orders `0.5 + 0.2*(1 - 1/n)`,
reduced by `imbalance / (n * 1000)` and clamped below at 0. -/
def parity_stability_score (m : Mat) : ℚ :=
  max 0 ((if m.order % 2 = 1 then 0.8 + 0.2 * (1 - 1 / (m.order : ℚ))
    else 0.5 + 0.2 * (1 - 1 / (m.order : ℚ))) -
    calculate_imbalance m / ((m.order : ℚ) * 1000))

/-- The uniform-plus-perturbation starting matrix of
`core_math.create_approximate_magic_square`: every entry is the ideal average
`magic_sum / order` plus the normal draw `variation[i][j]` (passed explicitly
as `var`). -/
def approx_base (order : ℕ) (var : ℕ → ℕ → ℚ) : Mat :=
  ⟨order, fun i j => magic_constant order / (order : ℚ) + var i j⟩

/-- The state after the row-rescaling pass of
`create_approximate_magic_square`.  The Python loop rescales row `i` in place
by `magic_sum / row_sum`; iteration `i` writes only row `i` and reads only row
`i`, so the loop is equivalent to this simultaneous form. -/
def approx_rows (order : ℕ) (var : ℕ → ℕ → ℚ) : Mat :=
  ⟨order, fun i j =>
    (approx_base order var).entry i j *
      (magic_constant order / rowSum (approx_base order var) i)⟩

/-- `core_math.create_approximate_magic_square(order)` with the random draws
passed explicitly: uniform base plus perturbation, then one row-rescaling pass
followed by one column-rescaling pass (column `j` is rescaled by
`magic_sum / col_sum` of the post-row-pass matrix; iteration `j` writes only
column `j` and reads only column `j`). -/
def create_approximate_magic_square (order : ℕ) (var : ℕ → ℕ → ℚ) : Mat :=
  ⟨order, fun i j =>
    (approx_rows order var).entry i j *
      (magic_constant order / colSum (approx_rows order var) j)⟩

end CoreMath

/-- The spec's notion of a perfect magic square, stated from the spec's words
for comparison with the code: every row sum, column sum and both main
diagonal sums are equal (to the first row's sum). -/
def is_perfect_magic (m : Mat) : Bool :=
  decide ((∀ i ∈ Finset.range m.order,
      rowSum m i = rowSum m 0 ∧ colSum m i = rowSum m 0) ∧
    diagSum m = rowSum m 0 ∧ antiDiagSum m = rowSum m 0)

section Evaluation

lemma loShu_order : generate_magic_square_3x3.order = 3 := rfl

lemma loShu_rowSum : ∀ i ∈ Finset.range 3, rowSum generate_magic_square_3x3 i = 15 := by
  intro i hi
  fin_cases hi <;>
    norm_num [rowSum, generate_magic_square_3x3, Finset.sum_range_succ]

lemma loShu_colSum : ∀ j ∈ Finset.range 3, colSum generate_magic_square_3x3 j = 15 := by
  intro j hj
  fin_cases hj <;>
    norm_num [colSum, generate_magic_square_3x3, Finset.sum_range_succ]

lemma loShu_diagSum : diagSum generate_magic_square_3x3 = 15 := by
  norm_num [diagSum, generate_magic_square_3x3, Finset.sum_range_succ]

lemma loShu_antiDiagSum : antiDiagSum generate_magic_square_3x3 = 15 := by
  norm_num [antiDiagSum, generate_magic_square_3x3, Finset.sum_range_succ]

lemma loShu_is_magic (tol : ℚ) (h : 0 ≤ tol) :
    CoreMath.is_magic_square generate_magic_square_3x3 tol = true := by
  have h0 : rowSum generate_magic_square_3x3 0 = 15 :=
    loShu_rowSum 0 (by norm_num)
  simp only [CoreMath.is_magic_square, loShu_order]
  rw [if_neg (by norm_num)]
  simp only [decide_eq_true_eq, loShu_order, h0, loShu_diagSum, loShu_antiDiagSum]
  refine ⟨fun i hi => ?_, by simpa using h, by simpa using h⟩
  rw [loShu_rowSum i hi, loShu_colSum i hi]
  simp only [sub_self, abs_zero]
  exact ⟨h, h⟩

lemma loShu_not_magic_of_neg (tol : ℚ) (h : tol < 0) :
    CoreMath.is_magic_square generate_magic_square_3x3 tol = false := by
  have h0 : rowSum generate_magic_square_3x3 0 = 15 :=
    loShu_rowSum 0 (by norm_num)
  simp only [CoreMath.is_magic_square, loShu_order]
  rw [if_neg (by norm_num)]
  simp only [decide_eq_false_iff_not, loShu_order]
  intro hall
  have := (hall.1 0 (by norm_num)).1
  rw [h0] at this
  simp at this
  linarith

lemma loShu_imbalance : CoreMath.calculate_imbalance generate_magic_square_3x3 = 0 := by
  have hk : CoreMath.magic_constant 3 = 15 := by
    norm_num [CoreMath.magic_constant]
  simp only [CoreMath.calculate_imbalance, loShu_order]
  rw [if_neg (by norm_num)]
  simp only [loShu_order, hk, loShu_diagSum, loShu_antiDiagSum]
  rw [Finset.sum_congr rfl (fun i hi => by
    rw [loShu_rowSum i hi, loShu_colSum i hi])]
  norm_num

end Evaluation

/-- A 3×3 all-zero matrix: every row, column and diagonal sums to 0, so it is
a perfect magic square in the spec's sense, yet its sums differ from the
theoretical constant 15. -/
def zero_square_3 : Mat := ⟨3, fun _ _ => 0⟩

/-- C3 (counterexample): `zero_square_3` is a perfect magic square (all 2N+2
sums equal), yet `core_math.calculate_imbalance` — which measures deviations
from the theoretical constant `N*(N²+1)/2 = 15`, not from the matrix's own
sums — returns 120 ≠ 0.  Hence "imbalance(m) = 0 iff m is a perfect magic
square" fails in the only-if→if direction claimed. -/
theorem claim3_counterexample :
    is_perfect_magic zero_square_3 = true ∧
    CoreMath.calculate_imbalance zero_square_3 ≠ 0 := by
  constructor
  · simp [is_perfect_magic, rowSum, colSum, diagSum, antiDiagSum, zero_square_3]
  · have hk : CoreMath.magic_constant 3 = 15 := by norm_num [CoreMath.magic_constant]
    simp only [CoreMath.calculate_imbalance, zero_square_3]
    rw [if_neg (by norm_num)]
    norm_num [rowSum, colSum, diagSum, antiDiagSum, hk, Finset.sum_range_succ]

/-- C3 (amended): `core_math.calculate_imbalance` is non-negative, and it is
zero iff every row sum, column sum and both diagonal sums equal the
theoretical magic constant `N*(N²+1)/2` (a strictly stronger condition than
being a perfect magic square). -/
theorem claim3_imbalance_zero_iff (m : Mat) :
    0 ≤ CoreMath.calculate_imbalance m ∧
    (CoreMath.calculate_imbalance m = 0 ↔
      ((∀ i ∈ Finset.range m.order,
          rowSum m i = CoreMath.magic_constant m.order ∧
          colSum m i = CoreMath.magic_constant m.order) ∧
        diagSum m = CoreMath.magic_constant m.order ∧
        antiDiagSum m = CoreMath.magic_constant m.order)) := by
  by_cases h0 : m.order = 0
  · refine ⟨by simp [CoreMath.calculate_imbalance, h0], ?_, ?_⟩
    · intro _
      refine ⟨fun i hi => by simp [h0] at hi, ?_, ?_⟩
      · simp [diagSum, h0, CoreMath.magic_constant]
      · simp [antiDiagSum, h0, CoreMath.magic_constant]
    · intro _
      simp [CoreMath.calculate_imbalance, h0]
  · have hsumnn : 0 ≤ ∑ i ∈ Finset.range m.order,
        (|rowSum m i - CoreMath.magic_constant m.order| +
          |colSum m i - CoreMath.magic_constant m.order|) :=
      Finset.sum_nonneg fun i _ => add_nonneg (abs_nonneg _) (abs_nonneg _)
    have hval : CoreMath.calculate_imbalance m =
        (∑ i ∈ Finset.range m.order,
          (|rowSum m i - CoreMath.magic_constant m.order| +
            |colSum m i - CoreMath.magic_constant m.order|)) +
          |diagSum m - CoreMath.magic_constant m.order| +
          |antiDiagSum m - CoreMath.magic_constant m.order| := by
      simp only [CoreMath.calculate_imbalance]
      rw [if_neg h0]
    constructor
    · rw [hval]
      exact add_nonneg (add_nonneg hsumnn (abs_nonneg _)) (abs_nonneg _)
    · rw [hval]
      constructor
      · intro hz
        have h1 : (∑ i ∈ Finset.range m.order,
            (|rowSum m i - CoreMath.magic_constant m.order| +
              |colSum m i - CoreMath.magic_constant m.order|)) +
            |diagSum m - CoreMath.magic_constant m.order| = 0 ∧
            |antiDiagSum m - CoreMath.magic_constant m.order| = 0 :=
          (add_eq_zero_iff_of_nonneg
            (add_nonneg hsumnn (abs_nonneg _)) (abs_nonneg _)).mp hz
        have h2 : (∑ i ∈ Finset.range m.order,
            (|rowSum m i - CoreMath.magic_constant m.order| +
              |colSum m i - CoreMath.magic_constant m.order|)) = 0 ∧
            |diagSum m - CoreMath.magic_constant m.order| = 0 :=
          (add_eq_zero_iff_of_nonneg hsumnn (abs_nonneg _)).mp h1.1
        have h3 := (Finset.sum_eq_zero_iff_of_nonneg
          (fun i _ => add_nonneg (abs_nonneg _) (abs_nonneg _))).mp h2.1
        refine ⟨fun i hi => ?_, ?_, ?_⟩
        · have h4 := (add_eq_zero_iff_of_nonneg (abs_nonneg _) (abs_nonneg _)).mp (h3 i hi)
          exact ⟨by linarith [abs_eq_zero.mp h4.1, sub_eq_zero.mp (abs_eq_zero.mp h4.1)],
            sub_eq_zero.mp (abs_eq_zero.mp h4.2)⟩
        · exact sub_eq_zero.mp (abs_eq_zero.mp h2.2)
        · exact sub_eq_zero.mp (abs_eq_zero.mp h1.2)
      · intro hall
        rw [Finset.sum_congr rfl (fun i hi => by
          rw [(hall.1 i hi).1, (hall.1 i hi).2, sub_self, abs_zero, add_zero])]
        rw [hall.2.1, hall.2.2, sub_self, abs_zero]
        simp

/-- C9 (counterexample): on the Lo Shu square (imbalance 0, order 3) the code
returns `0.8 + 0.2*(1 - 1/3) = 14/15`, not the claimed base "0.8 scaled by
`1 - 1/N`", i.e. `0.8*(1 - 1/3) = 8/15` (the imbalance penalty is 0 here, so
any penalty normalization gives the same claimed value). -/
theorem claim9_counterexample :
    CoreMath.parity_stability_score generate_magic_square_3x3 ≠
      max 0 (0.8 * (1 - 1 / (3 : ℚ)) -
        CoreMath.calculate_imbalance generate_magic_square_3x3 / ((3 : ℚ) * 1000)) := by
  simp only [CoreMath.parity_stability_score, loShu_order, loShu_imbalance]
  rw [if_pos trivial]
  rw [max_eq_right (by norm_num), max_eq_right (by norm_num)]
  norm_num

/-- C9 (amended): `core_math.parity_stability_score` is never below 0, equals
`max 0 (base - imbalance/(N*1000))` where the base for odd `N` is
`0.8 + 0.2*(1 - 1/N)` (not `0.8*(1 - 1/N)`) and for even `N` is the lower
`0.5 + 0.2*(1 - 1/N)`. -/
theorem claim9_parity_score_amended (m : Mat) :
    0 ≤ CoreMath.parity_stability_score m ∧
    CoreMath.parity_stability_score m =
      max 0 ((if m.order % 2 = 1 then 0.8 + 0.2 * (1 - 1 / (m.order : ℚ))
        else 0.5 + 0.2 * (1 - 1 / (m.order : ℚ))) -
        CoreMath.calculate_imbalance m / ((m.order : ℚ) * 1000)) ∧
    (0.5 + 0.2 * (1 - 1 / (m.order : ℚ))) < 0.8 + 0.2 * (1 - 1 / (m.order : ℚ)) := by
  refine ⟨le_max_left 0 _, rfl, by norm_num⟩

/-- C5: `core_math.is_magic_square(matrix, tolerance)` returns `true` only if
the order is at least 1 (so order 0 always yields `false`) and all `2N + 2`
sums — every row sum, every column sum, and both main diagonal sums — are
within `tolerance` of the magic constant taken from the first row's sum. -/
theorem claim5_is_magic_only_if (m : Mat) (tol : ℚ)
    (h : CoreMath.is_magic_square m tol = true) :
    1 ≤ m.order ∧
    (∀ i ∈ Finset.range m.order,
      |rowSum m i - rowSum m 0| ≤ tol ∧ |colSum m i - rowSum m 0| ≤ tol) ∧
    |diagSum m - rowSum m 0| ≤ tol ∧ |antiDiagSum m - rowSum m 0| ≤ tol := by
  unfold CoreMath.is_magic_square at h
  by_cases h0 : m.order = 0
  · rw [if_pos h0] at h
    simp at h
  · rw [if_neg h0] at h
    simp only [decide_eq_true_eq] at h
    exact ⟨Nat.one_le_iff_ne_zero.mpr h0, h.1, h.2.1, h.2.2⟩

/-- C5 (witness): instantiated on the Lo Shu square at tolerance 0. -/
theorem claim5_witness :
    1 ≤ generate_magic_square_3x3.order ∧
    (∀ i ∈ Finset.range generate_magic_square_3x3.order,
      |rowSum generate_magic_square_3x3 i - rowSum generate_magic_square_3x3 0| ≤ 0 ∧
      |colSum generate_magic_square_3x3 i - rowSum generate_magic_square_3x3 0| ≤ 0) ∧
    |diagSum generate_magic_square_3x3 - rowSum generate_magic_square_3x3 0| ≤ 0 ∧
    |antiDiagSum generate_magic_square_3x3 - rowSum generate_magic_square_3x3 0| ≤ 0 :=
  claim5_is_magic_only_if generate_magic_square_3x3 0 (loShu_is_magic 0 le_rfl)

/-- A concrete perturbation for order 2: only entry (0,0) is displaced. -/
def approx_var_2 : ℕ → ℕ → ℚ := fun i j => if i = 0 ∧ j = 0 then 1/2 else 0

/-- C10: in exact arithmetic, after the row-rescaling pass followed by the
column-rescaling pass of `create_approximate_magic_square`, every column sum
equals the ideal magic sum `order*(order²+1)/2` exactly (whenever the divisor
— the column sum being normalized — is nonzero, i.e. no numeric failure),
while the row sums may deviate from it: the residual imbalance lies in the
rows, as the concrete order-2 instance shows. -/
theorem claim10_column_sums_exact :
    (∀ (order : ℕ) (var : ℕ → ℕ → ℚ), ∀ j ∈ Finset.range order,
      colSum (CoreMath.approx_rows order var) j ≠ 0 →
      colSum (CoreMath.create_approximate_magic_square order var) j =
        CoreMath.magic_constant order) ∧
    (∃ var : ℕ → ℕ → ℚ,
      rowSum (CoreMath.create_approximate_magic_square 2 var) 0 ≠
        CoreMath.magic_constant 2) := by
  constructor
  · intro order var j hj hcol
    have hrw : colSum (CoreMath.create_approximate_magic_square order var) j =
        ∑ i ∈ Finset.range order,
          (CoreMath.approx_rows order var).entry i j *
            (CoreMath.magic_constant order / colSum (CoreMath.approx_rows order var) j) := rfl
    have h2 : (∑ i ∈ Finset.range order, (CoreMath.approx_rows order var).entry i j) =
        colSum (CoreMath.approx_rows order var) j := rfl
    rw [hrw, ← Finset.sum_mul, h2]
    field_simp
  · refine ⟨approx_var_2, ?_⟩
    norm_num [CoreMath.create_approximate_magic_square, CoreMath.approx_rows,
      CoreMath.approx_base, CoreMath.magic_constant, approx_var_2,
      rowSum, colSum, Finset.sum_range_succ]

/-- C10 (witness): at order 2 with the concrete perturbation `approx_var_2`,
column 0 of the synthesized matrix sums exactly to the ideal magic sum 5,
while row 0 does not. -/
theorem claim10_witness :
    colSum (CoreMath.create_approximate_magic_square 2 approx_var_2) 0 =
      CoreMath.magic_constant 2 ∧
    rowSum (CoreMath.create_approximate_magic_square 2 approx_var_2) 0 ≠
      CoreMath.magic_constant 2 := by
  constructor
  · exact claim10_column_sums_exact.1 2 approx_var_2 0 (by norm_num)
      (by norm_num [CoreMath.approx_rows, CoreMath.approx_base,
        CoreMath.magic_constant, approx_var_2, rowSum, colSum, Finset.sum_range_succ])
  · norm_num [CoreMath.create_approximate_magic_square, CoreMath.approx_rows,
      CoreMath.approx_base, CoreMath.magic_constant, approx_var_2,
      rowSum, colSum, Finset.sum_range_succ]

namespace MagicSquareCore

/-- The reference constant of `MATHEMATICS/magic_square_core.calculate_imbalance`:
`np.sum(matrix) / n`, the matrix's own average row sum (not the theoretical
constant used by `core_math`). -/
def average_constant (m : Mat) : ℚ :=
  (∑ i ∈ Finset.range m.order, rowSum m i) / (m.order : ℚ)

/-- `MATHEMATICS/magic_square_core.calculate_imbalance(matrix)`: sum of
absolute deviations of all row, column and both diagonal sums from
`np.sum(matrix)/n` (no order-0 guard in this variant). -/
def calculate_imbalance (m : Mat) : ℚ :=
  (∑ i ∈ Finset.range m.order,
    (|rowSum m i - average_constant m| + |colSum m i - average_constant m|)) +
    |diagSum m - average_constant m| + |antiDiagSum m - average_constant m|

end MagicSquareCore

namespace MagicCoupling

/-- `MagicCoupling._form_transition_state(a, b, strength)` with the random
initialization `np.random.rand(n, n)` passed explicitly as `pert`: the
composite has order `n_a + n_b`, starts from the perturbation, and
`a * strength` is added into the top-left `n_a × n_a` block and
`b * strength` into the bottom-right `n_b × n_b` block (the two `+=`
statements touch disjoint index ranges). -/
def _form_transition_state (a b : Mat) (strength : ℚ) (pert : ℕ → ℕ → ℚ) : Mat :=
  ⟨a.order + b.order, fun i j =>
    pert i j +
      (if i < a.order ∧ j < a.order then a.entry i j * strength else 0) +
      (if a.order ≤ i ∧ a.order ≤ j then b.entry (i - a.order) (j - a.order) * strength
       else 0)⟩

/-- `np.linalg.norm` of a square matrix: the Frobenius norm. -/
noncomputable def frobeniusNorm (m : Mat) : ℝ :=
  Real.sqrt (∑ i ∈ Finset.range m.order, ∑ j ∈ Finset.range m.order,
    ((m.entry i j : ℝ)) ^ 2)

/-- `MagicCoupling._calculate_stability_score(transition, stable)` for a
non-null `stable`: `0.4 * quality + 0.4 * energy + 0.2 * parity`, clamped
into [0, 1] by `min(1.0, max(0.0, ·))`.  The energy term is
`tanh(norm(transition) - norm(stable))` when the transition is strictly
larger than the stable matrix and the neutral constant 0.5 otherwise; the
quality term is `1 / (1 + imbalance)` with the average-based imbalance this
module imports from `magic_square_core`. -/
noncomputable def _calculate_stability_score (transition stable : Mat) : ℝ :=
  let stable_quality : ℝ := 1 / (1 + (MagicSquareCore.calculate_imbalance stable : ℝ))
  let stability_from_energy : ℝ :=
    if stable.order < transition.order then
      Real.tanh (frobeniusNorm transition - frobeniusNorm stable)
    else (0.5 : ℝ)
  let parity_bonus : ℝ := if stable.order % 2 = 1 then 1 else 0.3
  min 1 (max 0 (stable_quality * 0.4 + stability_from_energy * 0.4 + parity_bonus * 0.2))

end MagicCoupling

/-- C2: for every composite/candidate pair — including degenerate pairs of
equal order, where the neutral 0.5 energy branch is taken instead of the norm
comparison — the stability score of
`MagicCoupling._calculate_stability_score` lies in [0, 1], thanks to the
final `min(1.0, max(0.0, ·))` clamp. -/
theorem claim2_score_in_unit_interval (transition stable : Mat) :
    0 ≤ MagicCoupling._calculate_stability_score transition stable ∧
    MagicCoupling._calculate_stability_score transition stable ≤ 1 := by
  unfold MagicCoupling._calculate_stability_score
  exact ⟨le_min zero_le_one (le_max_left 0 _), min_le_left 1 _⟩

/-- C4: the composite returned by `MagicCoupling._form_transition_state` has
order `n_a + n_b`; its top-left block is perturbation plus `a * strength`,
its bottom-right block is perturbation plus `b * strength`, its off-diagonal
blocks are perturbation only, and at `strength = 1` subtracting the
perturbation recovers `a` and `b` exactly. -/
theorem claim4_compose_blocks (a b : Mat) (s : ℚ) (pert : ℕ → ℕ → ℚ)
    (hs0 : 0 ≤ s) (hs1 : s ≤ 1) :
    (MagicCoupling._form_transition_state a b s pert).order = a.order + b.order ∧
    (∀ i j, i < a.order → j < a.order →
      (MagicCoupling._form_transition_state a b s pert).entry i j =
        pert i j + a.entry i j * s) ∧
    (∀ k l, k < b.order → l < b.order →
      (MagicCoupling._form_transition_state a b s pert).entry (a.order + k) (a.order + l) =
        pert (a.order + k) (a.order + l) + b.entry k l * s) ∧
    (∀ i j, i < a.order → a.order ≤ j →
      (MagicCoupling._form_transition_state a b s pert).entry i j = pert i j) ∧
    (∀ i j, a.order ≤ i → j < a.order →
      (MagicCoupling._form_transition_state a b s pert).entry i j = pert i j) ∧
    (s = 1 →
      (∀ i j, i < a.order → j < a.order →
        (MagicCoupling._form_transition_state a b s pert).entry i j - pert i j =
          a.entry i j) ∧
      (∀ k l, k < b.order → l < b.order →
        (MagicCoupling._form_transition_state a b s pert).entry (a.order + k) (a.order + l) -
          pert (a.order + k) (a.order + l) = b.entry k l)) := by
  have htl : ∀ i j, i < a.order → j < a.order →
      (MagicCoupling._form_transition_state a b s pert).entry i j =
        pert i j + a.entry i j * s := by
    intro i j hi hj
    show pert i j + _ + _ = _
    rw [if_pos ⟨hi, hj⟩, if_neg (by omega), add_zero]
  have hbr : ∀ k l, k < b.order → l < b.order →
      (MagicCoupling._form_transition_state a b s pert).entry (a.order + k) (a.order + l) =
        pert (a.order + k) (a.order + l) + b.entry k l * s := by
    intro k l hk hl
    show pert _ _ + _ + _ = _
    rw [if_neg (by omega), if_pos ⟨by omega, by omega⟩, add_zero,
      Nat.add_sub_cancel_left, Nat.add_sub_cancel_left]
  refine ⟨rfl, htl, hbr, ?_, ?_, ?_⟩
  · intro i j hi hj
    show pert i j + _ + _ = _
    rw [if_neg (by omega), if_neg (by omega), add_zero, add_zero]
  · intro i j hi hj
    show pert i j + _ + _ = _
    rw [if_neg (by omega), if_neg (by omega), add_zero, add_zero]
  · intro hs
    subst hs
    constructor
    · intro i j hi hj
      rw [htl i j hi hj]
      ring
    · intro k l hk hl
      rw [hbr k l hk hl]
      ring

/-- C4 (witness): instantiated with two Lo Shu squares, `strength = 1` and
the zero perturbation; the top-left corner entry of the composite is 8. -/
theorem claim4_witness :
    (MagicCoupling._form_transition_state generate_magic_square_3x3
      generate_magic_square_3x3 1 (fun _ _ => 0)).order = 6 ∧
    (MagicCoupling._form_transition_state generate_magic_square_3x3
      generate_magic_square_3x3 1 (fun _ _ => 0)).entry 0 0 = 8 := by
  have h := claim4_compose_blocks generate_magic_square_3x3 generate_magic_square_3x3
    1 (fun _ _ => 0) (by norm_num) (by norm_num)
  refine ⟨h.1, ?_⟩
  rw [h.2.1 0 0 (by norm_num [loShu_order]) (by norm_num [loShu_order])]
  norm_num [generate_magic_square_3x3]

namespace QuantumCoupling

/-- The ambient nondeterminism of `quantum_coupling.py`, passed explicitly:
`fluct` is the `np.random.normal(0, 0.05, ...)` quantum-fluctuation draw of
`_form_transition_state`; `var o` is the `np.random.normal` draw used by
`create_approximate_magic_square` when a candidate of target order `o` is
synthesized; `svd o` is the outcome of the rank-`o` truncated-SVD
reconstruction `U[:, :o] @ diag(s[:o]) @ Vt[:o, :]` of the transition matrix,
with `none` modelling a raised `LinAlgError` (absorbed by the
`try/except` of `_generate_candidate`).  Every theorem below quantifies over
all environments, hence in particular holds for the actual draws and the
actual SVD values. -/
structure Env where
  fluct : ℕ → ℕ → ℚ
  var : ℕ → ℕ → ℕ → ℚ
  svd : ℕ → Option Mat

/-- `QuantumCoupling._form_transition_state(a, b)`: a zero matrix of order
`n_a + n_b` receives `a` in the top-left block and `b` in the bottom-right
block, then the quantum fluctuation is added everywhere. -/
def _form_transition_state (a b : Mat) (fluct : ℕ → ℕ → ℚ) : Mat :=
  ⟨a.order + b.order, fun i j =>
    (if i < a.order ∧ j < a.order then a.entry i j
     else if a.order ≤ i ∧ a.order ≤ j then b.entry (i - a.order) (j - a.order)
     else 0) + fluct i j⟩

/-- `QuantumCoupling._generate_candidate(transition, target_order)` with
configured threshold `threshold` (`self.stability_threshold`): canonical
square for orders 3 and 5, synthesized approximation otherwise; if that
candidate fails `is_magic_square` at the coarse tolerance 1.0 and the target
order fits inside the transition, it is replaced by the SVD projection (whose
failure, `none`, is the caught exception path); the final candidate is
returned only if it passes `is_magic_square` at `threshold`. -/
def _generate_candidate (threshold : ℚ) (transition : Mat) (target_order : ℕ)
    (env : Env) : Option Mat :=
  let candidate : Mat :=
    if target_order = 3 then generate_magic_square_3x3
    else if target_order = 5 then generate_magic_square_5x5
    else CoreMath.create_approximate_magic_square target_order (env.var target_order)
  let projected : Option Mat :=
    if CoreMath.is_magic_square candidate 1 then some candidate
    else if target_order ≤ transition.order then env.svd target_order
    else some candidate
  match projected with
  | none => none
  | some c => if CoreMath.is_magic_square c threshold then some c else none

/-- The sub-block `matrix[:k, :k]` flattened row-major, as in
`_calculate_match`'s `.flatten()`. -/
def flattenSub (m : Mat) (k : ℕ) : List ℚ :=
  ((List.range k).map (fun i => (List.range k).map (fun j => m.entry i j))).flatten

/-- `np.corrcoef(x, y)[0, 1]`: the Pearson correlation coefficient
`cov(x,y) / (σx · σy)` (Lean's total division absorbs the zero-variance
case, where NumPy emits NaN with a warning rather than raising). -/
noncomputable def corrcoef (xs ys : List ℝ) : ℝ :=
  let n : ℝ := xs.length
  let xbar : ℝ := xs.sum / n
  let ybar : ℝ := ys.sum / n
  ((xs.zip ys).map (fun p => (p.1 - xbar) * (p.2 - ybar))).sum /
    (Real.sqrt ((xs.map (fun x => (x - xbar) ^ 2)).sum) *
      Real.sqrt ((ys.map (fun y => (y - ybar) ^ 2)).sum))

/-- `QuantumCoupling._calculate_match(transition, candidate)`: 0.5 when the
common sub-block is smaller than 2, otherwise the correlation of the
flattened `min_size × min_size` sub-blocks mapped into [0, 1] by
`max(0, (corr + 1) / 2)`. -/
noncomputable def _calculate_match (transition candidate : Mat) : ℝ :=
  let min_size := min transition.order candidate.order
  if min_size < 2 then 0.5
  else
    max 0 ((corrcoef ((flattenSub transition min_size).map (fun q => (q : ℝ)))
      ((flattenSub candidate min_size).map (fun q => (q : ℝ))) + 1) / 2)

/-- `QuantumCoupling._evaluate_candidate(transition, candidate)`:
`0.4 * 1/(1 + imbalance) + 0.3 * match + 0.3 * parity`, with the
theoretical-constant imbalance of `core_math` and parity bonus 1.0 for odd
candidate order, 0.3 otherwise. -/
noncomputable def _evaluate_candidate (transition candidate : Mat) : ℝ :=
  0.4 * (1 / (1 + (CoreMath.calculate_imbalance candidate : ℝ))) +
    0.3 * _calculate_match transition candidate +
    0.3 * (if candidate.order % 2 = 1 then 1 else 0.3)

/-- The candidate loop of `QuantumCoupling._find_stable_state`, carrying the
`(best_candidate, best_score)` accumulator (initially `(None, -1)`): a `None`
from `_generate_candidate` leaves the accumulator unchanged and the loop
continues with the next target order; a candidate scoring strictly above the
best so far replaces it. -/
noncomputable def searchFold (threshold : ℚ) (transition : Mat) (env : Env) :
    Option Mat × ℝ → List ℕ → Option Mat × ℝ
  | acc, [] => acc
  | acc, o :: rest =>
    searchFold threshold transition env
      (match _generate_candidate threshold transition o env with
       | none => acc
       | some c =>
         if acc.2 < _evaluate_candidate transition c then
           (some c, _evaluate_candidate transition c)
         else acc)
      rest

/-- `QuantumCoupling._find_stable_state(transition, force_type)` with the
preferred orders passed as the policy list: filter to orders `≥ 3` strictly
below the transition's order, run the candidate loop, and return the best
candidate only if its score clears the 0.3 acceptance threshold. -/
noncomputable def _find_stable_state (threshold : ℚ) (transition : Mat)
    (preferred : List ℕ) (env : Env) : Option Mat :=
  let target_orders :=
    preferred.filter (fun o => decide (o < transition.order) && decide (3 ≤ o))
  let best := searchFold threshold transition env (none, -1) target_orders
  if (0.3 : ℝ) < best.2 then best.1 else none

/-- The force-type → preferred-orders table of `_find_stable_state`. -/
def preferred_orders (force_type : String) : List ℕ :=
  if force_type = "strong" then [3, 5, 7]
  else if force_type = "electromagnetic" then [3, 5, 7, 9]
  else if force_type = "weak" then [3, 5]
  else [3, 5, 7, 9, 11]

/-- The result record of `QuantumCoupling.couple_particles` (the fields that
carry algorithmic content: `success`, `transition_state`, `stable_state`,
`stability`). -/
structure CouplingResult where
  success : Bool
  transition_state : Mat
  stable_state : Option Mat
  stability : ℝ

/-- `QuantumCoupling.couple_particles` with the preferred orders passed as
the policy: compose the transition state, search for a stable state, then
score it (`success = stability > 0.3`) or report the failure shape
(`stability = 0.0`, `success = False`). -/
noncomputable def couple (threshold : ℚ) (a b : Mat) (preferred : List ℕ)
    (env : Env) : CouplingResult :=
  let transition := _form_transition_state a b env.fluct
  match _find_stable_state threshold transition preferred env with
  | some stable =>
    ⟨if (0.3 : ℝ) < _evaluate_candidate transition stable then true else false,
      transition, some stable, _evaluate_candidate transition stable⟩
  | none => ⟨false, transition, none, 0⟩

/-- `QuantumCoupling.couple_particles(particle_a, particle_b, force_type)`:
the particles contribute their magic squares, the force type selects the
preferred-order policy. -/
noncomputable def couple_particles (threshold : ℚ) (a b : Mat)
    (force_type : String) (env : Env) : CouplingResult :=
  couple threshold a b (preferred_orders force_type) env

end QuantumCoupling

section QuantumClaims

open QuantumCoupling

/-- The final validation step: if the guarded return of
`_generate_candidate` produces `some c`, the guard held for `c`. -/
lemma guard_some {threshold : ℚ} {c : Mat} (p : Option Mat)
    (h : (match p with
      | none => (none : Option Mat)
      | some x => if CoreMath.is_magic_square x threshold = true
          then some x else none) = some c) :
    CoreMath.is_magic_square c threshold = true := by
  cases p with
  | none => exact absurd h (by simp)
  | some x =>
    simp only at h
    split at h
    · rename_i hq
      injection h with h
      subst h
      exact hq
    · exact absurd h (by simp)

lemma generate_candidate_magic (threshold : ℚ) (t : Mat) (o : ℕ) (env : Env)
    (c : Mat) (h : _generate_candidate threshold t o env = some c) :
    CoreMath.is_magic_square c threshold = true :=
  guard_some _ h

/-- The candidate loop preserves the invariant that the best candidate, if
present, passes the validator at the configured threshold. -/
lemma searchFold_magic (threshold : ℚ) (t : Mat) (env : Env) :
    ∀ (l : List ℕ) (acc : Option Mat × ℝ),
      (∀ c : Mat, acc.1 = some c → CoreMath.is_magic_square c threshold = true) →
      ∀ c : Mat, (searchFold threshold t env acc l).1 = some c →
        CoreMath.is_magic_square c threshold = true := by
  intro l
  induction l with
  | nil => exact fun acc hacc c hc => hacc c hc
  | cons o rest ih =>
    intro acc hacc c hc
    simp only [searchFold] at hc
    refine ih _ ?_ c hc
    intro d hd
    cases hg : _generate_candidate threshold t o env with
    | none =>
      simp only [hg] at hd
      exact hacc d hd
    | some c' =>
      simp only [hg] at hd
      split at hd
      · replace hd : some c' = some d := hd
        injection hd with hd
        subst hd
        exact generate_candidate_magic threshold t o env _ hg
      · exact hacc d hd

/-- C1: whenever the stable-state search returns a candidate, that candidate
passes `is_magic_square` at the configured threshold — `_generate_candidate`
discards every candidate failing the validator, and the search only ever
keeps candidates produced by `_generate_candidate`. -/
theorem claim1_search_returns_magic (threshold : ℚ) (transition : Mat)
    (preferred : List ℕ) (env : Env) (c : Mat)
    (h : _find_stable_state threshold transition preferred env = some c) :
    CoreMath.is_magic_square c threshold = true := by
  simp only [_find_stable_state] at h
  split at h
  · exact searchFold_magic threshold transition env _ (none, -1) (by simp) c h
  · exact absurd h (by simp)

/-- The match term is always non-negative: it is either the neutral 0.5 or a
`max` with 0. -/
lemma match_nonneg (t c : Mat) : 0 ≤ _calculate_match t c := by
  simp only [_calculate_match]
  split
  · norm_num
  · exact le_max_left 0 _

/-- Scoring the Lo Shu square against any transition yields at least 0.7:
its imbalance is 0 (quality term 0.4) and its order is odd (parity term
0.3), and the match term is non-negative. -/
lemma evaluate_loShu_ge (t : Mat) :
    (0.7 : ℝ) ≤ _evaluate_candidate t generate_magic_square_3x3 := by
  have hm := match_nonneg t generate_magic_square_3x3
  simp only [_evaluate_candidate, loShu_imbalance, loShu_order]
  norm_num
  linarith

/-- A 4×4 zero matrix (stand-in transition of order 4). -/
def t4 : Mat := ⟨4, fun _ _ => 0⟩

/-- The trivial environment: zero draws, SVD never consulted successfully. -/
def env0 : Env := ⟨fun _ _ => 0, fun _ _ _ => 0, fun _ => none⟩

/-- Concrete run: searching the order-4 zero transition with policy `[3]`
returns the Lo Shu square. -/
lemma find_stable_t4 :
    _find_stable_state 0.8 t4 [3] env0 = some generate_magic_square_3x3 := by
  have hev := evaluate_loShu_ge t4
  have hgen : _generate_candidate 0.8 t4 3 env0 = some generate_magic_square_3x3 := by
    have h1 := loShu_is_magic 1 (by norm_num)
    have h2 := loShu_is_magic 0.8 (by norm_num)
    simp [_generate_candidate, h1, h2]
  have hlt1 : (-1 : ℝ) < _evaluate_candidate t4 generate_magic_square_3x3 := by
    linarith
  have hlt2 : (0.3 : ℝ) < _evaluate_candidate t4 generate_magic_square_3x3 := by
    norm_num at hev ⊢
    linarith
  simp only [_find_stable_state]
  have hfil : ([3] : List ℕ).filter
      (fun o => decide (o < t4.order) && decide (3 ≤ o)) = [3] := by decide
  rw [hfil]
  simp only [searchFold, hgen]
  simp [hlt1, hlt2]

/-- C1 (witness): the concrete search above returns the Lo Shu square, and
it indeed passes the validator at the configured threshold 0.8. -/
theorem claim1_witness :
    CoreMath.is_magic_square generate_magic_square_3x3 0.8 = true :=
  claim1_search_returns_magic 0.8 t4 [3] env0 generate_magic_square_3x3 find_stable_t4

/-- C6: if every preferred order is at least the composite's order
`n_a + n_b` (in particular if the preferred list is empty), the coupling
returns `success = false`, a null stable matrix and stability 0.0: the
filtered target list is empty, so the search returns `None` and
`couple_particles` takes its failure branch. -/
theorem claim6_empty_policy_fails (threshold : ℚ) (a b : Mat)
    (preferred : List ℕ) (env : Env)
    (h : ∀ o ∈ preferred, a.order + b.order ≤ o) :
    (couple threshold a b preferred env).success = false ∧
    (couple threshold a b preferred env).stable_state = none ∧
    (couple threshold a b preferred env).stability = 0 := by
  have hord : (_form_transition_state a b env.fluct).order = a.order + b.order := rfl
  have hfil : preferred.filter
      (fun o => decide (o < (_form_transition_state a b env.fluct).order) &&
        decide (3 ≤ o)) = [] := by
    rw [List.filter_eq_nil_iff]
    intro o ho
    have hle := h o ho
    simp only [hord, Bool.and_eq_true, decide_eq_true_eq, not_and]
    intro hlt
    omega
  have hfind : _find_stable_state threshold (_form_transition_state a b env.fluct)
      preferred env = none := by
    simp only [_find_stable_state, hfil, searchFold]
    rw [if_neg (show ¬ (0.3 : ℝ) < ((none : Option Mat), (-1 : ℝ)).2 by
      simp only [Prod.snd]; norm_num)]
  simp only [couple, hfind]
  exact ⟨trivial, trivial, trivial⟩

/-- C6 (witness): coupling two Lo Shu squares under an empty preferred-order
policy fails with the null/0.0 result shape. -/
theorem claim6_witness :
    (couple 0.8 generate_magic_square_3x3 generate_magic_square_3x3 [] env0).success = false ∧
    (couple 0.8 generate_magic_square_3x3 generate_magic_square_3x3 [] env0).stable_state = none ∧
    (couple 0.8 generate_magic_square_3x3 generate_magic_square_3x3 [] env0).stability = 0 :=
  claim6_empty_policy_fails 0.8 generate_magic_square_3x3 generate_magic_square_3x3 [] env0
    (by simp)

/-- C7: a failed candidate construction (`_generate_candidate` returning
`None`, e.g. because the SVD raised and the `try/except` absorbed it) is
treated as that candidate failing: the search over `o :: rest` equals the
search over `rest` — the loop skips the order and continues — and no
exception reaches the caller (in this embedding the construction returns
`Option`, the absorbed-exception shape of the source). -/
theorem claim7_failed_candidate_skipped (threshold : ℚ) (transition : Mat)
    (o : ℕ) (rest : List ℕ) (env : Env)
    (h : _generate_candidate threshold transition o env = none) :
    _find_stable_state threshold transition (o :: rest) env =
      _find_stable_state threshold transition rest env := by
  simp only [_find_stable_state, List.filter_cons]
  by_cases hp : (decide (o < transition.order) && decide (3 ≤ o)) = true
  · rw [if_pos hp]
    simp only [searchFold, h]
  · rw [if_neg hp]

/-- An order-5 zero matrix (stand-in transition of order 5). -/
def t5 : Mat := ⟨5, fun _ _ => 0⟩

/-- A perturbation displacing only entry (0,0), strongly enough that the
synthesized order-4 candidate fails the coarse tolerance-1.0 validation. -/
def svd_fail_var : ℕ → ℕ → ℚ := fun i j => if i = 0 ∧ j = 0 then 100 else 0

/-- An environment whose SVD computation fails (`LinAlgError`), with the
displacing perturbation used for every synthesized candidate. -/
def env_svd_fail : Env := ⟨fun _ _ => 0, fun _ => svd_fail_var, fun _ => none⟩

/-- The displaced order-4 synthesized candidate is not magic at tolerance 1:
its second row sum differs from its first row sum by far more than 1. -/
lemma approx4_not_magic :
    CoreMath.is_magic_square
      (CoreMath.create_approximate_magic_square 4 svd_fail_var) 1 = false := by
  simp only [CoreMath.is_magic_square]
  rw [if_neg (by decide)]
  simp only [decide_eq_false_iff_not]
  intro hall
  have h1 := (hall.1 1 (by decide)).1
  rw [abs_le] at h1
  have h2 := h1.2
  norm_num [rowSum, colSum, CoreMath.create_approximate_magic_square,
    CoreMath.approx_rows, CoreMath.approx_base, CoreMath.magic_constant,
    svd_fail_var, Finset.sum_range_succ] at h2

/-- Concrete failed construction: for target order 4 against the order-5
transition, the synthesized candidate fails the coarse check, the SVD
projection raises (environment returns `none`), and the whole construction
yields `None`. -/
lemma generate_candidate_svd_fail :
    _generate_candidate 0.8 t5 4 env_svd_fail = none := by
  simp only [_generate_candidate, env_svd_fail, t5]
  norm_num [approx4_not_magic]

/-- C7 (witness): with the failing construction at order 4, searching
`[4, 3]` equals searching `[3]`. -/
theorem claim7_witness :
    _find_stable_state 0.8 t5 [4, 3] env_svd_fail =
      _find_stable_state 0.8 t5 [3] env_svd_fail :=
  claim7_failed_candidate_skipped 0.8 t5 4 [3] env_svd_fail generate_candidate_svd_fail

/-- C8: the coupling operation is a pure function of its inputs and of the
random draws: with the random source fixed (identical values drawn for every
perturbation term, and the same SVD outcomes — the meaning of a fixed seed),
two calls with identical inputs return bit-identical results. -/
theorem claim8_deterministic (threshold : ℚ) (a b : Mat) (preferred : List ℕ)
    (env1 env2 : Env) (h : env1 = env2) :
    couple threshold a b preferred env1 = couple threshold a b preferred env2 := by
  rw [h]

/-- C8 (witness): instantiated at the Lo Shu pair with the trivial
environment. -/
theorem claim8_witness :
    couple 0.8 generate_magic_square_3x3 generate_magic_square_3x3 [3] env0 =
      couple 0.8 generate_magic_square_3x3 generate_magic_square_3x3 [3] env0 :=
  claim8_deterministic 0.8 generate_magic_square_3x3 generate_magic_square_3x3 [3]
    env0 env0 rfl

end QuantumClaims
